import Mathlib

/-!
Shallow embedding of `src/rtt_checker.py` (a Flask RTT monitor with an
embedded JavaScript sampler loop), together with theorems settling the
specification claims about it.

Conventions of the embedding:
* Python/JS floating-point numbers are modelled as rationals (`ℚ`);
* the mutable dictionary `RTTChecker.client_rtts` becomes an association
  list passed explicitly through each operation;
* route handlers become pure functions returning the updated store, the
  HTTP status code and the response payload;
* the sampler's timer callback (`setInterval` body) becomes a step
  function `tick` on an explicit `SamplerState`.
-/

/-- One stored RTT observation: `{'rtt': rtt, 'timestamp': datetime.now()}`.
The wall-clock timestamp is modelled as seconds (a `Nat`). -/
structure Sample where
  rtt : ℚ
  timestamp : Nat
deriving DecidableEq, Repr

/-- The aggregator store `RTTChecker.client_rtts`: a dictionary from client
id to its list of samples, modelled as an association list. -/
abbrev Store := List (String × List Sample)

/-- Dictionary lookup (`client_id in self.client_rtts` / indexing). -/
def lookupStore : Store → String → Option (List Sample)
  | [], _ => none
  | (k, v) :: rest, cid => if k = cid then some v else lookupStore rest cid

/-- Dictionary update `self.client_rtts[client_id] = hist` (replace the
binding if present, otherwise add it). -/
def setStore : Store → String → List Sample → Store
  | [], cid, hist => [(cid, hist)]
  | (k, v) :: rest, cid, hist =>
      if k = cid then (k, hist) :: rest else (k, v) :: setStore rest cid hist

/-- `RTTChecker.store_client_rtt`: create the history on first use, then
append the new sample. -/
def store_client_rtt (s : Store) (client_id : String) (rtt : ℚ)
    (now : Nat) : Store :=
  let hist := (lookupStore s client_id).getD []
  setStore s client_id (hist ++ [⟨rtt, now⟩])

/-- Two-digit zero padding, as produced by `strftime`. -/
def pad2 (n : Nat) : String :=
  if n < 10 then "0" ++ toString n else toString n

/-- `datetime.strftime("%H:%M:%S")` on a timestamp held as seconds. -/
def fmtTime (t : Nat) : String :=
  pad2 (t / 3600 % 24) ++ ":" ++ pad2 (t / 60 % 60) ++ ":" ++ pad2 (t % 60)

/-- Python's `min` over a list of numbers (left fold of binary `min`).
CPython raises on an empty input; every call site below is guarded by a
non-emptiness check, so the `[]` case returns a default. -/
def listMin : List ℚ → ℚ
  | [] => 0
  | x :: xs => xs.foldl min x

/-- Python's `max` over a list of numbers (left fold of binary `max`);
same empty-input convention as `listMin`. -/
def listMax : List ℚ → ℚ
  | [] => 0
  | x :: xs => xs.foldl max x

/-- `statistics.mean`: the exact arithmetic average (CPython computes it
exactly via `Fraction`); raises on empty input, guarded at call sites. -/
def mean (l : List ℚ) : ℚ := l.sum / l.length

/-- Ascending stable sort, the model of both Python's `sorted(data)` and
JS `[...rtts].sort((a, b) => a - b)`. -/
def sortAsc (l : List ℚ) : List ℚ := l.insertionSort (· ≤ ·)

/-- `statistics.median`: sort, then take the middle element (odd length)
or the average of the two central elements (even length). CPython raises
on an empty input; here that (guarded) case falls through to `0`. -/
def pyMedian (l : List ℚ) : ℚ :=
  let data := sortAsc l
  let n := data.length
  if n % 2 = 1 then data.getD (n / 2) 0
  else (data.getD (n / 2 - 1) 0 + data.getD (n / 2) 0) / 2

/-- Python's slice `l[-10:]` generalised: the last `n` elements. -/
def lastN (n : Nat) (l : List α) : List α := l.drop (l.length - n)

/-- The statistics dictionary built by `RTTChecker.get_client_stats`. -/
structure StatsSnapshot where
  client_id : String
  count : Nat
  min : ℚ
  max : ℚ
  avg : ℚ
  median : ℚ
  recent_rtts : List ℚ
  timestamps : List String
deriving DecidableEq, Repr

/-- Result of `RTTChecker.get_client_stats`: either the error-shaped
dictionary or a full statistics snapshot. -/
inductive StatsResult where
  | noData (error : String)
  | snapshot (s : StatsSnapshot)
deriving DecidableEq, Repr

/-- The Korean message of the error payload returned for unknown clients. -/
def noDataMsg : String := "RTT 데이터가 없습니다."

/-- `RTTChecker.get_client_stats`, line for line: an unknown or empty
history yields the error dictionary, otherwise the statistics are computed
from the stored RTTs. -/
def get_client_stats (s : Store) (client_id : String) : StatsResult :=
  match lookupStore s client_id with
  | none => .noData noDataMsg
  | some hist =>
      if hist.isEmpty then .noData noDataMsg
      else
        let rtts := hist.map Sample.rtt
        .snapshot
          { client_id := client_id
            count := rtts.length
            min := listMin rtts
            max := listMax rtts
            avg := mean rtts
            median := pyMedian rtts
            recent_rtts := lastN 10 rtts
            timestamps := (lastN 10 hist).map (fun d => fmtTime d.timestamp) }

/-- The route `GET /stats/<client_id>`: always `jsonify`s whatever
`get_client_stats` returned, with the implicit status 200. -/
def get_client_stats_route (s : Store) (client_id : String) :
    Nat × StatsResult :=
  (200, get_client_stats s client_id)

/-- `get_client_stats` viewed as a state transformer on the store, making
its effect on `client_rtts` explicit: the method only reads the
dictionary, so the store it leaves behind is the one it was given. -/
def get_client_stats_st (s : Store) (client_id : String) :
    Store × StatsResult :=
  (s, get_client_stats s client_id)

/-- The success body returned by the `/ping` route. -/
structure PongBody where
  status : String
  client_id : String
  server_timestamp : ℚ
  client_timestamp : Option ℚ
deriving DecidableEq, Repr

/-- Response payload of the `/ping` route. -/
inductive PingResp where
  | badRequest (error : String)
  | pong (body : PongBody)
deriving DecidableEq, Repr

/-- The Korean message of the 400 payload for a missing client id. -/
def pingErrMsg : String := "클라이언트 ID가 필요합니다."

/-- The route `POST /ping`: reads `client_id` and `timestamp` from the
JSON body (either may be absent), rejects a missing or empty `client_id`
with a 400, and otherwise answers 200 with the pong body echoing the
client timestamp next to the freshly captured server time. The handler
never touches `rtt_checker.client_rtts`, so the store passes through
unchanged. -/
def ping_route (s : Store) (client_id : Option String)
    (timestamp : Option ℚ) (serverNow : ℚ) : Store × Nat × PingResp :=
  match client_id with
  | none => (s, 400, .badRequest pingErrMsg)
  | some cid =>
      if cid = "" then (s, 400, .badRequest pingErrMsg)
      else
        (s, 200, .pong
          { status := "pong"
            client_id := cid
            server_timestamp := serverNow
            client_timestamp := timestamp })

/-! ## The sampler (embedded JavaScript) -/

/-- The visible content of the `status` element: the green "measuring"
text (with the lifetime count and the latest RTT interpolated into it) or
the red connection-error text set in the `catch` branch. -/
inductive StatusView where
  | measuring (count : Nat) (recent : ℚ)
  | connectionError
deriving DecidableEq, Repr

/-- What the awaited `fetch('/ping', ...)` produced on one tick: a thrown
network error, or a response carrying `ok` plus the server's echoed
timestamps (which the script never reads). -/
inductive TickOutcome where
  | netError
  | response (ok : Bool) (serverTimestamp : ℚ) (clientTimestamp : ℚ)
deriving DecidableEq, Repr

/-- The sampler's mutable state: the rolling window `rtts`, the lifetime
counter `totalMeasurements`, the status element (text and colour), and
whether the interval timer is installed. -/
structure SamplerState where
  rtts : List ℚ
  totalMeasurements : Nat
  status : StatusView
  statusColor : String
  timerRunning : Bool
deriving DecidableEq, Repr

/-- State at page load, after `startContinuousRTT` installed the timer. -/
def initSampler : SamplerState :=
  { rtts := []
    totalMeasurements := 0
    status := .measuring 0 0
    statusColor := "#4caf50"
    timerRunning := true }

/-- `rtts.push(rtt)` followed by `if (rtts.length > 100) rtts.shift()`. -/
def appendWindow (w : List ℚ) (x : ℚ) : List ℚ :=
  let pushed := w ++ [x]
  if 100 < pushed.length then pushed.tail else pushed

/-- One run of the `setInterval` callback. `t0` and `t1` are the two
`performance.now()` readings taken just before the fetch and just after
it resolves. On a thrown network error the `catch` branch repaints the
status red; on a response the sample `t1 - t0` is recorded only when
`response.ok` holds, and a non-ok response changes nothing. The callback
never clears the interval, so the timer flag is untouched in every case. -/
def tick (s : SamplerState) (t0 t1 : ℚ) (out : TickOutcome) : SamplerState :=
  match out with
  | .netError =>
      { s with status := .connectionError, statusColor := "#f44336" }
  | .response ok _ _ =>
      let rtt := t1 - t0
      if ok then
        { s with
          rtts := appendWindow s.rtts rtt
          totalMeasurements := s.totalMeasurements + 1
          status := .measuring (s.totalMeasurements + 1) rtt }
      else s

/-- A successful tick event with send/receive times `p.1` and `p.2` (the
echoed timestamps are irrelevant to the recorded state, see
`rtt_from_monotonic_clock_only`). -/
def okEvent (p : ℚ × ℚ) : ℚ × ℚ × TickOutcome :=
  (p.1, p.2, .response true 0 0)

/-- Run a sequence of tick events (each bundling `t0`, `t1` and the fetch
outcome) from a given sampler state. -/
def runTicks (s : SamplerState) (events : List (ℚ × ℚ × TickOutcome)) :
    SamplerState :=
  events.foldl (fun st e => tick st e.1 e.2.1 e.2.2) s

/-- The sample variance displayed by `updateRealTimeResults` (population
formula): mean of the squared deviations from the mean. -/
def variance (l : List ℚ) : ℚ :=
  (l.map (fun x => (x - mean l) ^ 2)).sum / l.length

/-- The median displayed by `updateRealTimeResults`: sort a copy
ascending, average the two central values when the length is even, else
take the single central value. -/
def jsMedian (l : List ℚ) : ℚ :=
  let sorted := sortAsc l
  if sorted.length % 2 = 0 then
    (sorted.getD (sorted.length / 2 - 1) 0 + sorted.getD (sorted.length / 2) 0) / 2
  else sorted.getD (sorted.length / 2) 0

/-- 105 concrete tick times: send time 0, receive time `i`. -/
def c6pairs : List (ℚ × ℚ) := (List.range 105).map fun (i : ℕ) => ((0 : ℚ), (i : ℚ))

/-- A concrete three-sample history used as witness input. -/
def histC5 : List Sample := [⟨10, 1⟩, ⟨20, 2⟩, ⟨30, 3⟩]

/-- A one-client store holding `histC5`. -/
def storeC5 : Store := [("c", histC5)]

/-- A concrete two-sample history used as witness input. -/
def histC10 : List Sample := [⟨1, 3661⟩, ⟨2, 7322⟩]

/-- A one-client store holding `histC10`. -/
def storeC10 : Store := [("d", histC10)]

/-! ## Claim theorems -/

/-- C1: the spec says a ping for a valid client id records a sample, so a
subsequent `getStats` for that id reflects it. The `/ping` handler answers
200 for the valid id `"abc"` but never touches the store: afterwards the
store still has no history for `"abc"` and the stats route answers the
no-data payload. The unused method `store_client_rtt` would have created
the history (last conjunct), so the missing call is a slip in the code. -/
theorem ping_route_does_not_record :
    (ping_route [] (some "abc") (some 5) 1000).2.1 = 200 ∧
    lookupStore (ping_route [] (some "abc") (some 5) 1000).1 "abc" = none ∧
    (get_client_stats_route (ping_route [] (some "abc") (some 5) 1000).1
        "abc").2 = .noData noDataMsg ∧
    lookupStore (store_client_rtt (ping_route [] (some "abc") (some 5) 1000).1
        "abc" 5 0) "abc" = some [⟨5, 0⟩] := by
  refine ⟨rfl, rfl, rfl, rfl⟩

/-- C2 counterexample: a tick whose fetch resolves with a non-success
response (`response.ok` false) leaves the visible status exactly as it
was — the green "measuring" text — and in particular does not switch it
to the error indicator, contradicting the claim that any failing request
switches the status. -/
theorem tick_bad_response_status_unchanged :
    tick ⟨[3], 1, .measuring 1 3, "#4caf50", true⟩ 0 2 (.response false 7 8) =
      ⟨[3], 1, .measuring 1 3, "#4caf50", true⟩ ∧
    (tick ⟨[3], 1, .measuring 1 3, "#4caf50", true⟩ 0 2
        (.response false 7 8)).status ≠ .connectionError := by
  exact ⟨rfl, by decide⟩

/-- C2 amended: on a network error the tick appends no sample, switches
the status to the connection-error indicator and leaves the timer
running; on a non-success response the tick appends no sample and leaves
the timer running, but the visible status (and the whole state) is left
unchanged. -/
theorem tick_failure_handling (s : SamplerState) (t0 t1 : ℚ) :
    ((tick s t0 t1 .netError).rtts = s.rtts ∧
      (tick s t0 t1 .netError).totalMeasurements = s.totalMeasurements ∧
      (tick s t0 t1 .netError).status = .connectionError ∧
      (tick s t0 t1 .netError).timerRunning = s.timerRunning) ∧
    ∀ st ct : ℚ, tick s t0 t1 (.response false st ct) = s :=
  ⟨⟨rfl, rfl, rfl, rfl⟩, fun _ _ => rfl⟩

/-- C3: the stats route always answers with status 200, and whenever the
client id is unknown to the store (or its history is empty) the payload
is the error-shaped no-data dictionary; being a total function, the
handler never throws and never produces a 404. -/
theorem stats_route_always_200_no_data (s : Store) (client_id : String) :
    (get_client_stats_route s client_id).1 = 200 ∧
    ((lookupStore s client_id = none ∨ lookupStore s client_id = some []) →
      (get_client_stats_route s client_id).2 = .noData noDataMsg) := by
  refine ⟨rfl, ?_⟩
  rintro (h | h) <;> simp [get_client_stats_route, get_client_stats, h]

/-- Witness for C3 at the empty store and client id `"x"`. -/
theorem stats_route_always_200_no_data_witness :
    (get_client_stats_route [] "x").1 = 200 ∧
    (get_client_stats_route [] "x").2 = .noData noDataMsg :=
  ⟨(stats_route_always_200_no_data [] "x").1,
    (stats_route_always_200_no_data [] "x").2 (Or.inl rfl)⟩

/-- C4: `/ping` with a missing or empty `client_id` answers 400 with the
error payload; with any non-empty `client_id` it answers 200 with the
pong body carrying status `"pong"`, the client id, the freshly captured
server timestamp and the echoed client timestamp, leaving the store
untouched — no failure path once validation passes. -/
theorem ping_route_validation (s : Store) (ts : Option ℚ) (now : ℚ) :
    (ping_route s none ts now).2 = (400, .badRequest pingErrMsg) ∧
    (ping_route s (some "") ts now).2 = (400, .badRequest pingErrMsg) ∧
    ∀ cid : String, cid ≠ "" →
      ping_route s (some cid) ts now = (s, 200, .pong ⟨"pong", cid, now, ts⟩) := by
  refine ⟨rfl, rfl, fun cid h => ?_⟩
  simp [ping_route, h]

/-- Witness for C4 at the non-empty client id `"abc"`. -/
theorem ping_route_validation_witness :
    ping_route [] (some "abc") (some 3) 7 =
      ([], 200, .pong ⟨"pong", "abc", 7, some 3⟩) :=
  (ping_route_validation [] (some 3) 7).2.2 "abc" (by decide)

/-- C8: the state recorded by a tick does not depend on the server's
echoed timestamps — two responses differing only in those fields yield
the same state — and a successful tick records exactly `t1 - t0`, the
difference of the sampler's own two clock readings, as the new window
entry, bumping the lifetime counter. -/
theorem rtt_from_monotonic_clock_only (s : SamplerState) (t0 t1 : ℚ)
    (ok : Bool) (st1 ct1 st2 ct2 : ℚ) :
    tick s t0 t1 (.response ok st1 ct1) = tick s t0 t1 (.response ok st2 ct2) ∧
    (tick s t0 t1 (.response true st1 ct1)).rtts = appendWindow s.rtts (t1 - t0) ∧
    (tick s t0 t1 (.response true st1 ct1)).totalMeasurements =
      s.totalMeasurements + 1 :=
  ⟨rfl, rfl, rfl⟩

/-- C9: `get_client_stats` is read-only — viewed as a state transformer
it hands back the very store it was given, so every client's history
(contents, length and order) is unchanged by a stats query. -/
theorem get_client_stats_readonly (s : Store) (client_id : String) :
    (get_client_stats_st s client_id).1 = s ∧
    ∀ c : String,
      lookupStore (get_client_stats_st s client_id).1 c = lookupStore s c :=
  ⟨rfl, fun _ => rfl⟩

/-- Folding window appends from a window within the cap lands in the
last-100 suffix of everything ever appended. -/
lemma foldl_appendWindow (xs : List ℚ) : ∀ w : List ℚ, w.length ≤ 100 →
    xs.foldl appendWindow w = (w ++ xs).drop (w.length + xs.length - 100) := by
  induction xs with
  | nil =>
      intro w hw
      have h0 : w.length - 100 = 0 := by omega
      simp [h0]
  | cons x xs ih =>
      intro w hw
      rcases Nat.lt_or_ge w.length 100 with h1 | h1
      · have hlen : ¬ 100 < (w ++ [x]).length := by
          simp only [List.length_append, List.length_cons, List.length_nil]
          omega
        have happ : appendWindow w x = w ++ [x] := by
          simp only [appendWindow]
          rw [if_neg hlen]
        rw [List.foldl_cons, happ,
          ih (w ++ [x]) (by simp only [List.length_append, List.length_cons,
            List.length_nil]; omega)]
        have hassoc : w ++ [x] ++ xs = w ++ x :: xs := by simp
        rw [hassoc]
        congr 1
        simp only [List.length_append, List.length_cons, List.length_nil]
        omega
      · have h1' : w.length = 100 := by omega
        obtain ⟨a, t, rfl⟩ : ∃ a t, w = a :: t := by
          cases w with
          | nil => simp at h1'
          | cons a t => exact ⟨a, t, rfl⟩
        have ht : t.length = 99 := by
          simp only [List.length_cons] at h1'
          omega
        have hlen : 100 < ((a :: t) ++ [x]).length := by
          simp only [List.cons_append, List.length_cons, List.length_append,
            List.length_nil]
          omega
        have happ : appendWindow (a :: t) x = t ++ [x] := by
          simp only [appendWindow]
          rw [if_pos hlen]
          rfl
        rw [List.foldl_cons, happ,
          ih (t ++ [x]) (by simp only [List.length_append, List.length_cons,
            List.length_nil]; omega)]
        have hidx1 : (t ++ [x]).length + xs.length - 100 = xs.length := by
          simp only [List.length_append, List.length_cons, List.length_nil]
          omega
        have hidx2 : (a :: t).length + (x :: xs).length - 100 = xs.length + 1 := by
          simp only [List.length_cons]
          omega
        rw [hidx1, hidx2, List.cons_append, List.drop_succ_cons,
          List.append_assoc, List.singleton_append]

/-- A run of successful ticks folds the window appends over the recorded
RTTs `t1 - t0` and advances the lifetime counter by the number of ticks. -/
lemma runTicks_ok_events (pairs : List (ℚ × ℚ)) : ∀ s : SamplerState,
    (runTicks s (pairs.map okEvent)).rtts =
      (pairs.map fun p => p.2 - p.1).foldl appendWindow s.rtts ∧
    (runTicks s (pairs.map okEvent)).totalMeasurements =
      s.totalMeasurements + pairs.length := by
  induction pairs with
  | nil => exact fun s => ⟨rfl, rfl⟩
  | cons p ps ih =>
      intro s
      have hstep : runTicks s ((p :: ps).map okEvent) =
          runTicks { s with
            rtts := appendWindow s.rtts (p.2 - p.1)
            totalMeasurements := s.totalMeasurements + 1
            status := .measuring (s.totalMeasurements + 1) (p.2 - p.1) }
            (ps.map okEvent) := rfl
      obtain ⟨ih1, ih2⟩ := ih { s with
        rtts := appendWindow s.rtts (p.2 - p.1)
        totalMeasurements := s.totalMeasurements + 1
        status := .measuring (s.totalMeasurements + 1) (p.2 - p.1) }
      constructor
      · rw [hstep, ih1]
        rfl
      · rw [hstep, ih2]
        simp only [List.length_cons]
        omega

/-- C6: after any 105 successful ticks starting from the freshly loaded
page, the rolling window holds exactly the last 100 recorded RTTs in
order (the five oldest evicted first-in-first-out by the cap of 100),
while the lifetime measurement counter reads 105. -/
theorem window_eviction_105 (pairs : List (ℚ × ℚ)) (h : pairs.length = 105) :
    (runTicks initSampler (pairs.map okEvent)).rtts =
      (pairs.map fun p => p.2 - p.1).drop 5 ∧
    (runTicks initSampler (pairs.map okEvent)).totalMeasurements = 105 := by
  obtain ⟨h1, h2⟩ := runTicks_ok_events pairs initSampler
  constructor
  · rw [h1]
    have hcap : (initSampler.rtts).length ≤ 100 := by simp [initSampler]
    rw [foldl_appendWindow _ _ hcap]
    have hidx : (initSampler.rtts).length +
        (pairs.map fun p => p.2 - p.1).length - 100 = 5 := by
      simp [initSampler, h]
    rw [hidx]
    simp [initSampler]
  · rw [h2]
    simp [initSampler, h]

/-- Witness for C6 at the 105 concrete ticks of `c6pairs`. -/
theorem window_eviction_105_witness :
    c6pairs.length = 105 ∧
    ((runTicks initSampler (c6pairs.map okEvent)).rtts =
      (c6pairs.map fun p => p.2 - p.1).drop 5 ∧
     (runTicks initSampler (c6pairs.map okEvent)).totalMeasurements = 105) :=
  ⟨by rw [c6pairs, List.length_map, List.length_range],
    window_eviction_105 c6pairs
      (by rw [c6pairs, List.length_map, List.length_range])⟩

/-- A left fold of binary `min` never exceeds its seed. -/
lemma foldl_min_le_init (xs : List ℚ) : ∀ a : ℚ, xs.foldl min a ≤ a := by
  induction xs with
  | nil => intro a; exact le_refl a
  | cons x xs ih =>
      intro a
      exact le_trans (ih (min a x)) (min_le_left a x)

/-- A left fold of binary `min` is below every list element. -/
lemma foldl_min_le_mem (xs : List ℚ) : ∀ (a x : ℚ), x ∈ xs →
    xs.foldl min a ≤ x := by
  induction xs with
  | nil => intro a x hx; exact absurd hx (List.not_mem_nil x)
  | cons y ys ih =>
      intro a x hx
      rcases List.mem_cons.mp hx with h | h
      · subst h
        exact le_trans (foldl_min_le_init ys (min a x)) (min_le_right a x)
      · exact ih (min a y) x h

/-- A left fold of binary `min` returns its seed or a list element. -/
lemma foldl_min_mem (xs : List ℚ) : ∀ a : ℚ,
    xs.foldl min a = a ∨ xs.foldl min a ∈ xs := by
  induction xs with
  | nil => intro a; exact Or.inl rfl
  | cons y ys ih =>
      intro a
      rcases ih (min a y) with h | h
      · rcases min_choice a y with hm | hm
        · left
          rw [List.foldl_cons, h, hm]
        · right
          rw [List.foldl_cons, h, hm]
          exact List.mem_cons_self y ys
      · right
        exact List.mem_cons_of_mem y h

/-- Dual of `foldl_min_le_init` for `max`. -/
lemma le_foldl_max_init (xs : List ℚ) : ∀ a : ℚ, a ≤ xs.foldl max a := by
  induction xs with
  | nil => intro a; exact le_refl a
  | cons x xs ih =>
      intro a
      exact le_trans (le_max_left a x) (ih (max a x))

/-- Dual of `foldl_min_le_mem` for `max`. -/
lemma le_foldl_max_mem (xs : List ℚ) : ∀ (a x : ℚ), x ∈ xs →
    x ≤ xs.foldl max a := by
  induction xs with
  | nil => intro a x hx; exact absurd hx (List.not_mem_nil x)
  | cons y ys ih =>
      intro a x hx
      rcases List.mem_cons.mp hx with h | h
      · subst h
        exact le_trans (le_max_right a x) (le_foldl_max_init ys (max a x))
      · exact ih (max a y) x h

/-- Dual of `foldl_min_mem` for `max`. -/
lemma foldl_max_mem (xs : List ℚ) : ∀ a : ℚ,
    xs.foldl max a = a ∨ xs.foldl max a ∈ xs := by
  induction xs with
  | nil => intro a; exact Or.inl rfl
  | cons y ys ih =>
      intro a
      rcases ih (max a y) with h | h
      · rcases max_choice a y with hm | hm
        · left
          rw [List.foldl_cons, h, hm]
        · right
          rw [List.foldl_cons, h, hm]
          exact List.mem_cons_self y ys
      · right
        exact List.mem_cons_of_mem y h

/-- `listMin` of a non-empty list is one of its elements. -/
lemma listMin_mem (l : List ℚ) (h : l ≠ []) : listMin l ∈ l := by
  cases l with
  | nil => exact absurd rfl h
  | cons x xs =>
      rcases foldl_min_mem xs x with h1 | h1
      · rw [listMin, h1]
        exact List.mem_cons_self x xs
      · rw [listMin]
        exact List.mem_cons_of_mem x h1

/-- `listMin` is a lower bound of the list. -/
lemma listMin_le (l : List ℚ) (x : ℚ) (hx : x ∈ l) : listMin l ≤ x := by
  cases l with
  | nil => exact absurd hx (List.not_mem_nil x)
  | cons y ys =>
      rcases List.mem_cons.mp hx with h | h
      · subst h
        exact foldl_min_le_init ys x
      · exact foldl_min_le_mem ys y x h

/-- `listMax` of a non-empty list is one of its elements. -/
lemma listMax_mem (l : List ℚ) (h : l ≠ []) : listMax l ∈ l := by
  cases l with
  | nil => exact absurd rfl h
  | cons x xs =>
      rcases foldl_max_mem xs x with h1 | h1
      · rw [listMax, h1]
        exact List.mem_cons_self x xs
      · rw [listMax]
        exact List.mem_cons_of_mem x h1

/-- `listMax` is an upper bound of the list. -/
lemma le_listMax (l : List ℚ) (x : ℚ) (hx : x ∈ l) : x ≤ listMax l := by
  cases l with
  | nil => exact absurd hx (List.not_mem_nil x)
  | cons y ys =>
      rcases List.mem_cons.mp hx with h | h
      · subst h
        exact le_foldl_max_init ys x
      · exact le_foldl_max_mem ys y x h

/-- The last-`n` slice has length `min (length l) n`. -/
lemma lastN_length (n : Nat) (l : List α) :
    (lastN n l).length = min l.length n := by
  simp only [lastN, List.length_drop]
  omega

/-- The last-`n` slice commutes with `map`. -/
lemma lastN_map (f : α → β) (n : Nat) (l : List α) :
    lastN n (l.map f) = (lastN n l).map f := by
  unfold lastN
  rw [List.map_drop, List.length_map]

/-- C10: in every non-error snapshot, `recent_rtts` and `timestamps` both
have length `min (history length) 10`, and position for position they are
the RTT and formatted capture time of the same sample, taken from the
last ten history entries in chronological order. -/
theorem recent_rtts_timestamps_aligned (s : Store) (client_id : String)
    (hist : List Sample) (h : lookupStore s client_id = some hist)
    (hne : hist ≠ []) :
    ∃ snap, get_client_stats s client_id = .snapshot snap ∧
      snap.recent_rtts.length = min hist.length 10 ∧
      snap.timestamps.length = min hist.length 10 ∧
      snap.recent_rtts = (lastN 10 hist).map Sample.rtt ∧
      snap.timestamps = (lastN 10 hist).map (fun d => fmtTime d.timestamp) := by
  have hemp : ¬ hist.isEmpty = true := by
    cases hist with
    | nil => exact absurd rfl hne
    | cons a t => simp
  simp only [get_client_stats, h, if_neg hemp]
  refine ⟨_, rfl, ?_, ?_, ?_, rfl⟩
  · rw [lastN_length, List.length_map]
  · rw [List.length_map, lastN_length]
  · exact lastN_map Sample.rtt 10 hist

/-- Witness for C10 at the two-sample store `storeC10`. -/
theorem recent_rtts_timestamps_aligned_witness :
    lookupStore storeC10 "d" = some histC10 ∧ histC10 ≠ [] ∧
    (∃ snap, get_client_stats storeC10 "d" = .snapshot snap ∧
      snap.recent_rtts.length = min histC10.length 10 ∧
      snap.timestamps.length = min histC10.length 10 ∧
      snap.recent_rtts = (lastN 10 histC10).map Sample.rtt ∧
      snap.timestamps = (lastN 10 histC10).map (fun d => fmtTime d.timestamp)) :=
  ⟨rfl, by simp [histC10],
    recent_rtts_timestamps_aligned storeC10 "d" histC10 rfl (by simp [histC10])⟩

/-- C5: for a client with a non-empty history the snapshot's count is the
history length, its min and max are the extrema of the recorded RTTs, its
average times the count is the sum (the exact arithmetic average), its
median is the standard order statistic read off any sorted rearrangement
of the RTTs (mean of the two central values at even count, the central
value at odd count), and its recent lists are the last ten samples in
chronological order with their formatted time labels. -/
theorem get_client_stats_correct (s : Store) (client_id : String)
    (hist : List Sample) (h : lookupStore s client_id = some hist)
    (hne : hist ≠ []) :
    ∃ snap, get_client_stats s client_id = .snapshot snap ∧
      snap.count = hist.length ∧
      snap.min ∈ hist.map Sample.rtt ∧
      (∀ x ∈ hist.map Sample.rtt, snap.min ≤ x) ∧
      snap.max ∈ hist.map Sample.rtt ∧
      (∀ x ∈ hist.map Sample.rtt, x ≤ snap.max) ∧
      snap.avg * hist.length = (hist.map Sample.rtt).sum ∧
      (∀ sorted : List ℚ, sorted.Perm (hist.map Sample.rtt) →
        sorted.Sorted (· ≤ ·) →
        snap.median = if hist.length % 2 = 0 then
            (sorted.getD (hist.length / 2 - 1) 0 +
              sorted.getD (hist.length / 2) 0) / 2
          else sorted.getD (hist.length / 2) 0) ∧
      snap.recent_rtts = (lastN 10 hist).map Sample.rtt ∧
      snap.timestamps = (lastN 10 hist).map (fun d => fmtTime d.timestamp) := by
  have hemp : ¬ hist.isEmpty = true := by
    cases hist with
    | nil => exact absurd rfl hne
    | cons a t => simp
  have hmapne : hist.map Sample.rtt ≠ [] := by
    cases hist with
    | nil => exact absurd rfl hne
    | cons a t => simp
  have hlenmap : (hist.map Sample.rtt).length = hist.length :=
    List.length_map hist Sample.rtt
  have hlenq : ((hist.map Sample.rtt).length : ℚ) ≠ 0 := by
    rw [hlenmap]
    exact_mod_cast Nat.cast_ne_zero.mpr (fun h0 => hne (List.length_eq_zero.mp h0))
  simp only [get_client_stats, h, if_neg hemp]
  refine ⟨_, rfl, ?_, ?_, ?_, ?_, ?_, ?_, ?_, ?_, rfl⟩
  · exact hlenmap
  · exact listMin_mem _ hmapne
  · exact fun x hx => listMin_le _ x hx
  · exact listMax_mem _ hmapne
  · exact fun x hx => le_listMax _ x hx
  · rw [mean, ← hlenmap]
    exact div_mul_cancel₀ _ hlenq
  · intro sorted hperm hsorted
    have hperm2 : sorted.Perm (sortAsc (hist.map Sample.rtt)) :=
      hperm.trans (List.perm_insertionSort (· ≤ ·) (hist.map Sample.rtt)).symm
    have hsorted2 : (sortAsc (hist.map Sample.rtt)).Sorted (· ≤ ·) :=
      List.sorted_insertionSort (· ≤ ·) (hist.map Sample.rtt)
    have heq : sorted = sortAsc (hist.map Sample.rtt) :=
      List.eq_of_perm_of_sorted hperm2 hsorted hsorted2
    have hlensort : (sortAsc (hist.map Sample.rtt)).length = hist.length := by
      rw [sortAsc, List.length_insertionSort, hlenmap]
    rw [pyMedian, heq]
    simp only [hlensort]
    rcases Nat.mod_two_eq_zero_or_one hist.length with hp | hp
    · rw [if_neg (by omega), if_pos hp]
    · rw [if_pos hp, if_neg (by omega)]
  · exact lastN_map Sample.rtt 10 hist

/-- Witness for C5 at the three-sample store `storeC5` of RTTs 10, 20, 30
(so in particular its median branch is the spec's odd example). -/
theorem get_client_stats_correct_witness :
    lookupStore storeC5 "c" = some histC5 ∧ histC5 ≠ [] ∧
    (∃ snap, get_client_stats storeC5 "c" = .snapshot snap ∧
      snap.count = histC5.length ∧
      snap.min ∈ histC5.map Sample.rtt ∧
      (∀ x ∈ histC5.map Sample.rtt, snap.min ≤ x) ∧
      snap.max ∈ histC5.map Sample.rtt ∧
      (∀ x ∈ histC5.map Sample.rtt, x ≤ snap.max) ∧
      snap.avg * histC5.length = (histC5.map Sample.rtt).sum ∧
      (∀ sorted : List ℚ, sorted.Perm (histC5.map Sample.rtt) →
        sorted.Sorted (· ≤ ·) →
        snap.median = if histC5.length % 2 = 0 then
            (sorted.getD (histC5.length / 2 - 1) 0 +
              sorted.getD (histC5.length / 2) 0) / 2
          else sorted.getD (histC5.length / 2) 0) ∧
      snap.recent_rtts = (lastN 10 histC5).map Sample.rtt ∧
      snap.timestamps = (lastN 10 histC5).map (fun d => fmtTime d.timestamp)) :=
  ⟨rfl, by simp [histC5],
    get_client_stats_correct storeC5 "c" histC5 rfl (by simp [histC5])⟩

/-- C7: the displayed standard deviation is the square root of the
population variance — so the window `[1,1,1]` shows 0 and `[0,10]` shows
5 — and for every non-empty window the displayed median agrees with the
aggregator's median, tie rule included. -/
theorem stddev_median_display :
    Real.sqrt ((variance [1, 1, 1] : ℚ) : ℝ) = 0 ∧
    Real.sqrt ((variance [0, 10] : ℚ) : ℝ) = 5 ∧
    ∀ w : List ℚ, w ≠ [] → jsMedian w = pyMedian w := by
  refine ⟨?_, ?_, ?_⟩
  · have hv : variance [1, 1, 1] = 0 := by norm_num [variance, mean]
    rw [hv]
    simp
  · have hv : variance [0, 10] = 25 := by norm_num [variance, mean]
    rw [hv]
    have h2 : ((25 : ℚ) : ℝ) = (5 : ℝ) ^ 2 := by norm_num
    rw [h2, Real.sqrt_sq (by norm_num : (0 : ℝ) ≤ 5)]
  · intro w hw
    rw [jsMedian, pyMedian]
    rcases Nat.mod_two_eq_zero_or_one (sortAsc w).length with hp | hp
    · rw [if_pos hp, if_neg (by omega)]
    · rw [if_neg (by omega), if_pos hp]

/-- Witness for C7 at the non-empty window `[3, 1, 2]`. -/
theorem stddev_median_display_witness :
    ([3, 1, 2] : List ℚ) ≠ [] ∧ jsMedian [3, 1, 2] = pyMedian [3, 1, 2] :=
  ⟨by simp, stddev_median_display.2.2 [3, 1, 2] (by simp)⟩
